import Mathlib

/-!
Verification model of the Openotex LaTeX compilation orchestration engine
(main-process `compile-latex` handler and its helpers: `spawnCollect`,
`detectLatexDistribution`, `installLatexPackage`, `installLatexFonts`,
`detectFontError`, `detectMissingPackage`, `detectCitationError`,
`needsRecompilation`).

The handler is a sequential loop of external-process invocations.  We embed it
shallowly: every external effect (an engine run, a version query, a
package-manager invocation, the bibtex run, reading the `.aux` file, probing
the PDF artifact) is answered by an oracle environment `Env`, and the model
returns, next to the outcome, the ordered list of effect/progress events it
performed.  The regex classifiers are oracle functions on the combined output
text (the claims quantify over all classifier behaviours), except the
package-name allowlist regex, which is embedded concretely.
-/

namespace Openotex

/-- Combined captured output of one resolved external process invocation. -/
structure ProcOutput where
  stdout : String
  stderr : String
deriving DecidableEq, Repr

/-- Result of one engine invocation through `spawnCollect` as the orchestrator
sees it: `ok` when the promise resolved, `err` when it rejected (the rejection
carries the collected stdout/stderr and the error message). -/
inductive RunRes
  | ok (out : ProcOutput)
  | err (stdout stderr msg : String)
deriving DecidableEq, Repr

/-- Detected LaTeX distribution, the result type of `detectLatexDistribution`. -/
inductive Distribution
  | miktex
  | texlive
  | unknown
deriving DecidableEq, Repr

/-- Result shape of `installLatexPackage` / `installLatexFonts`. -/
structure InstallResult where
  success : Bool
  message : String
deriving DecidableEq, Repr

/-- Progress stages sent over the `compilation-status` channel. -/
inductive Stage
  | cleaning
  | fontInstallation
  | packageInstallation
  | retry
deriving DecidableEq, Repr

/-- Observable actions of one compilation request, in order.  `engineRun` is a
`spawnCollect` invocation of the LaTeX engine, `versionQuery` an invocation of
`pdflatex --version` inside `detectLatexDistribution`, `installPackage n` the
package-manager command sequence of `installLatexPackage n`, `installFonts`
the command sequence of `installLatexFonts`, `bibtexRun` the bibtex
invocation, `cleanupAux` the deletion of the `.aux`/`.out`/`.bbl` files, and
`progress s` a `compilation-status` event. -/
inductive Event
  | engineRun
  | versionQuery
  | installPackage (name : String)
  | installFonts
  | bibtexRun
  | cleanupAux
  | progress (stage : Stage)
deriving DecidableEq, Repr

/-- Terminal value of the `compile-latex` handler: the resolved object with
`success: true` (pdf data, log, warnings) or `success: false`
(error, log, details). -/
inductive Outcome
  | success (pdfData log warnings : String)
  | failure (error log details : String)
deriving DecidableEq, Repr

/-- Whether an outcome is the `success: true` shape. -/
def Outcome.isSuccess : Outcome → Bool
  | .success _ _ _ => true
  | .failure _ _ _ => false

/-- Log field of the outcome (`log` on both shapes). -/
def Outcome.logOf : Outcome → String
  | .success _ log _ => log
  | .failure _ log _ => log

/-- Oracle environment answering every external effect of one compilation
request.  Indexed oracles are keyed by the number of invocations of that kind
made so far, so every possible sequence of process results and classifier
outputs is a choice of `Env`. -/
structure Env where
  /-- Result of the n-th engine invocation (`runLatexEngine`, i.e.
  `spawnCollect engine args`). -/
  runLatexEngine : Nat → RunRes
  /-- Result of the n-th `detectLatexDistribution` call (each call invokes
  `pdflatex --version`). -/
  detectLatexDistribution : Nat → Distribution
  /-- Outcome of the n-th package-manager command sequence inside
  `installLatexPackage` (`mpm`/`initexmf` or `tlmgr`/`mktexlsr`): `none` if it
  completes, `some msg` if it throws with message `msg`. -/
  pkgInstallExec : Nat → Option String
  /-- Outcome of the font-bundle command sequence inside `installLatexFonts`:
  `none` if it completes, `some msg` if it throws with message `msg`. -/
  fontsInstallExec : Option String
  /-- `detectCitationError` on a combined error output. -/
  detectCitationError : String → Bool
  /-- `detectFontError` on a combined error output: `(hasError, packageName)`. -/
  detectFontError : String → Bool × Option String
  /-- `detectMissingPackage` on a combined error output. -/
  detectMissingPackage : String → Option String
  /-- `needsRecompilation` on a combined output. -/
  needsRecompilation : String → Bool
  /-- Content of the document's `.aux` file, `none` if reading it throws. -/
  auxContent : Option String
  /-- Result of the bibtex invocation: its outputs if it resolves, `none` if
  it rejects. -/
  bibtexRes : Option ProcOutput
  /-- Base64 data of the PDF artifact if it exists on disk and is readable
  after the final pass, `none` if it is absent. -/
  pdfData : Option String

/-- Mutable state of one `compile-latex` request: the orchestrator-local
variables plus the per-kind oracle cursors. -/
structure St where
  attemptCount : Nat
  installedPackages : List String
  attemptedFontFallback : Bool
  currentAttempt : Option ProcOutput
  nRun : Nat
  nDetect : Nat
  nPkg : Nat
deriving DecidableEq, Repr

/-- The `maxAttempts = 5` constant of the attempt loop. -/
def maxAttempts : Nat := 5

/-- Character class of the package-name allowlist regex
`^[A-Za-z0-9._-]+$`. -/
def isAllowedChar (c : Char) : Bool :=
  (('A' ≤ c && c ≤ 'Z') || ('a' ≤ c && c ≤ 'z') || ('0' ≤ c && c ≤ '9')
    || c == '.' || c == '_' || c == '-')

/-- The allowlist test `/^[A-Za-z0-9._-]+$/.test(packageName)`: a nonempty
string all of whose characters lie in the class. -/
def validPackageName (s : String) : Bool :=
  !s.isEmpty && s.data.all isAllowedChar

/-- Whether `pat` occurs as a contiguous run inside the character list. -/
def infixAux (pat : List Char) : List Char → Bool
  | [] => pat.isEmpty
  | b :: bs => pat.isPrefixOf (b :: bs) || infixAux pat bs

/-- Substring containment used for the `.aux` bibliography markers
(`auxContent.includes(...)`). -/
def containsSubstr (s pat : String) : Bool :=
  infixAux pat.data s.data

/-- Model of `installLatexPackage` (helper, source lines 1996-2030): validate
the name against the allowlist, then run `detectLatexDistribution` (one
version query per call - there is no memoization in this helper), then run the
distribution-specific install + refresh command sequence (abstracted to the
`pkgInstallExec` oracle outcome), catching a thrown error into a failure
message. -/
def installLatexPackage (env : Env) (st : St) (packageName : String) :
    InstallResult × St × List Event :=
  if !validPackageName packageName then
    (⟨false, "Invalid package name."⟩, st, [])
  else
    let d := env.detectLatexDistribution st.nDetect
    let st1 : St := { st with nDetect := st.nDetect + 1 }
    match d with
    | .unknown => (⟨false, "Unknown LaTeX distribution."⟩, st1, [.versionQuery])
    | _ =>
      let k := st1.nPkg
      let st2 : St := { st1 with nPkg := k + 1 }
      match env.pkgInstallExec k with
      | none =>
        (⟨true, s!"Package {packageName} installed successfully"⟩, st2,
          [.versionQuery, .installPackage packageName])
      | some msg =>
        (⟨false, s!"Failed to install package {packageName}: {msg}"⟩, st2,
          [.versionQuery, .installPackage packageName])

/-- Model of `installLatexFonts` (source lines 1955-1994): for a known
distribution run the two-package fallback bundle command sequence (abstracted
to the `fontsInstallExec` oracle outcome); for an unknown distribution fail
without running anything. -/
def installLatexFonts (env : Env) (st : St) (dist : Distribution) :
    InstallResult × St × List Event :=
  match dist with
  | .unknown =>
    (⟨false, "Unknown LaTeX distribution. Skipping automatic font installation."⟩, st, [])
  | _ =>
    match env.fontsInstallExec with
    | none => (⟨true, "Required fonts installed successfully"⟩, st, [.installFonts])
    | some msg => (⟨false, s!"Font installation failed: {msg}"⟩, st, [.installFonts])

/-- How one iteration of the attempt loop ends after a rejected engine run:
`cont` is `continue`, `ret o` is `return o` out of the handler, and
`raise` is the re-`throw` at the end of the catch block (landing in the
handler's outer catch). -/
inductive StepRes
  | cont
  | ret (o : Outcome)
  | raise (stdout stderr msg : String)
deriving DecidableEq, Repr

/-- Budget-exhaustion check at the end of the catch block (source lines
2209-2220): return the budget failure when `attemptCount >= maxAttempts`,
otherwise re-throw the error. -/
def exhaustStep (st : St) (eout eerr emsg : String) (evAcc : List Event) :
    StepRes × St × List Event :=
  if maxAttempts ≤ st.attemptCount then
    (.ret (.failure "Compilation failed after multiple attempts" (eout ++ eerr)
      (if emsg == "" then "Maximum compilation attempts reached" else emsg)), st, evAcc)
  else
    (.raise eout eerr emsg, st, evAcc)

/-- Missing-package branch of the catch block (source lines 2180-2207): if a
missing package name was extracted and not yet in `installedPackages`, install
it; on success record it and continue, on failure return immediately with the
installer's message as detail.  Otherwise fall through to the
budget-exhaustion check. -/
def missingPackageStep (env : Env) (st : St) (eout eerr emsg : String)
    (evAcc : List Event) : StepRes × St × List Event :=
  let errorOutput := eout ++ eerr
  match env.detectMissingPackage errorOutput with
  | some m =>
    if !m.isEmpty && !(st.installedPackages.contains m) then
      let ev1 := evAcc ++ [Event.progress .packageInstallation]
      let res := (installLatexPackage env st m).1
      let st1 := (installLatexPackage env st m).2.1
      let evI := (installLatexPackage env st m).2.2
      if res.success then
        (.cont, { st1 with installedPackages := m :: st1.installedPackages },
          ev1 ++ evI ++ [.progress .retry])
      else
        (.ret (.failure (s!"Failed to install package: {m}") errorOutput res.message),
          st1, ev1 ++ evI)
    else
      exhaustStep st eout eerr emsg evAcc
  | none => exhaustStep st eout eerr emsg evAcc

/-- Generic font-fallback part of the font branch (source lines 2143-2176):
if the two-package fallback was not yet attempted, mark it attempted, emit the
font-installation progress event, fail immediately for an unknown
distribution, otherwise run `installLatexFonts`; continue on success, return
on failure.  If the fallback was already attempted, fall through to the
missing-package branch. -/
def fontFallbackStep (env : Env) (dist : Distribution) (st : St)
    (eout eerr emsg : String) (evAcc : List Event) : StepRes × St × List Event :=
  let errorOutput := eout ++ eerr
  if !st.attemptedFontFallback then
    let st1 : St := { st with attemptedFontFallback := true }
    let ev1 := evAcc ++ [Event.progress .fontInstallation]
    if dist == .unknown then
      (.ret (.failure "Font installation failed" errorOutput
        "Unknown LaTeX distribution. Install fonts manually."), st1, ev1)
    else
      let res := (installLatexFonts env st1 dist).1
      let st2 := (installLatexFonts env st1 dist).2.1
      let evF := (installLatexFonts env st1 dist).2.2
      if res.success then (.cont, st2, ev1 ++ evF ++ [.progress .retry])
      else
        (.ret (.failure "Font installation failed" errorOutput res.message), st2, ev1 ++ evF)
  else
    missingPackageStep env st eout eerr emsg evAcc

/-- The whole catch block of one failed attempt (source lines 2090-2220):
citation-corruption cleanup (first attempt only), then the font branch (named
install, falling through to the fallback bundle on a failed or inapplicable
named install), then the missing-package branch, then budget exhaustion /
re-throw.  The auxiliary-file deletions never throw in the source (each
`fs.unlink` carries `.catch(() => {})`), so the citation branch always
continues. -/
def handleFailedAttempt (env : Env) (dist : Distribution) (st : St)
    (eout eerr emsg : String) : StepRes × St × List Event :=
  let errorOutput := eout ++ eerr
  if env.detectCitationError errorOutput && st.attemptCount == 1 then
    (.cont, st, [.progress .cleaning, .cleanupAux, .progress .retry])
  else
    let fe := env.detectFontError errorOutput
    if fe.1 then
      match fe.2 with
      | some p =>
        if !p.isEmpty && !(st.installedPackages.contains p) then
          let ev0 := [Event.progress .fontInstallation]
          let res := (installLatexPackage env st p).1
          let st1 := (installLatexPackage env st p).2.1
          let evI := (installLatexPackage env st p).2.2
          if res.success then
            (.cont, { st1 with installedPackages := p :: st1.installedPackages },
              ev0 ++ evI ++ [.progress .retry])
          else
            fontFallbackStep env dist st1 eout eerr emsg (ev0 ++ evI)
        else
          fontFallbackStep env dist st eout eerr emsg []
      | none => fontFallbackStep env dist st eout eerr emsg []
    else
      missingPackageStep env st eout eerr emsg []

/-- How the attempt loop ends: `broke` falls out of the loop into
post-processing, `returned` is an early `return`, `threw` propagates to the
handler's outer catch. -/
inductive LoopExit
  | broke
  | returned (o : Outcome)
  | threw (stdout stderr msg : String)
deriving DecidableEq, Repr

/-- Result of running the attempt loop: how it exited, the final state, and
the events emitted inside the loop. -/
structure LoopOut where
  exit : LoopExit
  st : St
  events : List Event
deriving DecidableEq, Repr

/-- The attempt loop (source lines 2073-2222):
`while (attemptCount < maxAttempts) { attemptCount++; ... }`.  Each iteration
invokes the engine once; a resolved run records `currentAttempt` and either
continues (rerun-needed and budget left) or breaks; a rejected run goes
through `handleFailedAttempt`.  `fuel` is a recursion bound; the loop guard
itself is the source's `attemptCount < maxAttempts`, so any `fuel` at least
`maxAttempts - attemptCount` gives the source behaviour. -/
def attemptLoop (env : Env) (dist : Distribution) : Nat → St → LoopOut
  | 0, st => ⟨.broke, st, []⟩
  | fuel + 1, st =>
    if st.attemptCount < maxAttempts then
      let st1 : St := { st with attemptCount := st.attemptCount + 1 }
      let r := env.runLatexEngine st1.nRun
      let st2 : St := { st1 with nRun := st1.nRun + 1 }
      match r with
      | .ok out =>
        let output := out.stdout ++ out.stderr
        let st3 : St := { st2 with currentAttempt := some out }
        if env.needsRecompilation output && decide (st3.attemptCount < maxAttempts) then
          let rest := attemptLoop env dist fuel st3
          ⟨rest.exit, rest.st, .engineRun :: rest.events⟩
        else
          ⟨.broke, st3, [.engineRun]⟩
      | .err eout eerr emsg =>
        match handleFailedAttempt env dist st2 eout eerr emsg with
        | (.cont, st3, evs) =>
          let rest := attemptLoop env dist fuel st3
          ⟨rest.exit, rest.st, .engineRun :: (evs ++ rest.events)⟩
        | (.ret o, st3, evs) => ⟨.returned o, st3, .engineRun :: evs⟩
        | (.raise a b c, st3, evs) => ⟨.threw a b c, st3, .engineRun :: evs⟩
    else
      ⟨.broke, st, []⟩

/-- Final artifact check (source lines 2262-2285): the outcome is `success`
exactly when the PDF artifact exists and its bytes are read back; its absence
after the final pass is itself a failure. -/
def pdfCheck (env : Env) (combinedOut combinedErr : String) : Outcome :=
  match env.pdfData with
  | some data => .success data combinedOut combinedErr
  | none => .failure "Compilation failed - PDF not generated" combinedOut combinedErr

/-- Post-processing after the loop (source lines 2224-2285): fail if no
attempt ever resolved; otherwise look for the `\bibdata` / `\citation`
markers in the `.aux` file (a failed read or a rejected bibtex run skips the
step), and when bibtex ran, perform exactly two further engine passes, each
appended to the combined log under its delimiter; a rejected rerun propagates
to the outer catch.  Finally check the PDF artifact. -/
def postProcess (env : Env) (st : St) : Outcome × St × List Event :=
  match st.currentAttempt with
  | none =>
    (.failure "Compilation failed - no successful attempt" ""
      "Failed to compile after all attempts", st, [])
  | some att =>
    let runBib : Bool :=
      match env.auxContent with
      | some aux => containsSubstr aux "\\bibdata" || containsSubstr aux "\\citation"
      | none => false
    if runBib then
      match env.bibtexRes with
      | none => (pdfCheck env att.stdout att.stderr, st, [.bibtexRun])
      | some b =>
        let out1 := att.stdout ++ "\n\n[BibTeX]\n" ++ b.stdout
        let err1 := att.stderr ++ "\n\n[BibTeX]\n" ++ b.stderr
        let r2 := env.runLatexEngine st.nRun
        let stA : St := { st with nRun := st.nRun + 1 }
        match r2 with
        | .err a bb c =>
          (.failure (if c == "" then "Compilation error" else c) a bb, stA,
            [.bibtexRun, .engineRun])
        | .ok p2 =>
          let out2 := out1 ++ "\n\n[Re-run 1]\n" ++ p2.stdout
          let err2 := err1 ++ "\n\n[Re-run 1]\n" ++ p2.stderr
          let r3 := env.runLatexEngine stA.nRun
          let stB : St := { stA with nRun := stA.nRun + 1 }
          match r3 with
          | .err a bb c =>
            (.failure (if c == "" then "Compilation error" else c) a bb, stB,
              [.bibtexRun, .engineRun, .engineRun])
          | .ok p3 =>
            let out3 := out2 ++ "\n\n[Re-run 2]\n" ++ p3.stdout
            let err3 := err2 ++ "\n\n[Re-run 2]\n" ++ p3.stderr
            (pdfCheck env out3 err3, stB, [.bibtexRun, .engineRun, .engineRun])
    else
      (pdfCheck env att.stdout att.stderr, st, [])

/-- Initial orchestrator state: the distribution has already been detected
once (cursor `nDetect = 1`), everything else fresh. -/
def initSt : St :=
  { attemptCount := 0, installedPackages := [], attemptedFontFallback := false,
    currentAttempt := none, nRun := 0, nDetect := 1, nPkg := 0 }

/-- Model of the whole `compile-latex` handler (source lines 2033-2294):
detect the distribution once up front, run the attempt loop, map an early
return / a propagated throw to the corresponding failure object, otherwise
post-process.  Returns the outcome, the final state and the full ordered
event trace of the request. -/
def compileLatex (env : Env) : Outcome × St × List Event :=
  let dist := env.detectLatexDistribution 0
  let L := attemptLoop env dist maxAttempts initSt
  match L.exit with
  | .returned o => (o, L.st, .versionQuery :: L.events)
  | .threw a b c =>
    (.failure (if c == "" then "Compilation error" else c) a b, L.st,
      .versionQuery :: L.events)
  | .broke =>
    ((postProcess env L.st).1, (postProcess env L.st).2.1,
      .versionQuery :: (L.events ++ (postProcess env L.st).2.2))

/-- How the `exit` handler of `spawnCollect` settles its promise (source
lines 1085-1096).  The child's exit code is `none` when the child was killed
by a signal, which is what the timeout timer does (`child.kill()` on expiry);
the source's test `if (code && code !== 0)` rejects only for a nonzero
integer code. -/
inductive SpawnSettle
  | resolved (stdout stderr : String) (code : Option Int)
  | rejected (stdout stderr msg : String)
deriving DecidableEq, Repr

/-- Settlement decision of `spawnCollect`'s `exit` listener, given the
collected outputs and the exit code delivered by the event. -/
def spawnExitSettle (stdout stderr : String) (code : Option Int) : SpawnSettle :=
  match code with
  | some c => if c ≠ 0 then .rejected stdout stderr s!"Process exited with code {c}"
              else .resolved stdout stderr (some c)
  | none => .resolved stdout stderr none

/-- Model of the `install-latex-package` IPC handler (source lines
1810-1844): same allowlist validation, then its own distribution detection
and distribution-specific install command. -/
def installLatexPackageHandler (env : Env) (st : St) (packageName : String) :
    InstallResult × St × List Event :=
  if !validPackageName packageName then
    (⟨false, "Invalid package name."⟩, st, [])
  else
    let d := env.detectLatexDistribution st.nDetect
    let st1 : St := { st with nDetect := st.nDetect + 1 }
    match d with
    | .unknown =>
      (⟨false, "Unknown LaTeX distribution. Cannot auto-install packages."⟩, st1,
        [.versionQuery])
    | _ =>
      let k := st1.nPkg
      let st2 : St := { st1 with nPkg := k + 1 }
      match env.pkgInstallExec k with
      | none =>
        (⟨true, s!"Package {packageName} installed successfully"⟩, st2,
          [.versionQuery, .installPackage packageName])
      | some msg =>
        (⟨false, msg⟩, st2, [.versionQuery, .installPackage packageName])

/-! ### Event counting helpers -/

/-- Whether an event is an engine invocation. -/
def isEngineRun : Event → Bool
  | .engineRun => true
  | _ => false

/-- Whether an event is the auxiliary-file cleanup. -/
def isCleanupAux : Event → Bool
  | .cleanupAux => true
  | _ => false

/-- Whether an event is a `pdflatex --version` distribution query. -/
def isVersionQuery : Event → Bool
  | .versionQuery => true
  | _ => false

/-- Whether an event is the fallback font-bundle installation. -/
def isInstallFonts : Event → Bool
  | .installFonts => true
  | _ => false

/-- Whether an event is the installer invocation for the given name. -/
def isInstallOf (name : String) : Event → Bool :=
  fun e => e == Event.installPackage name

@[simp] theorem isInstallOf_engineRun (name : String) :
    isInstallOf name Event.engineRun = false := rfl

@[simp] theorem isInstallOf_versionQuery (name : String) :
    isInstallOf name Event.versionQuery = false := rfl

@[simp] theorem isInstallOf_installFonts (name : String) :
    isInstallOf name Event.installFonts = false := rfl

@[simp] theorem isInstallOf_bibtexRun (name : String) :
    isInstallOf name Event.bibtexRun = false := rfl

@[simp] theorem isInstallOf_cleanupAux (name : String) :
    isInstallOf name Event.cleanupAux = false := rfl

@[simp] theorem isInstallOf_progress (name : String) (s : Stage) :
    isInstallOf name (Event.progress s) = false := rfl

@[simp] theorem isInstallOf_installPackage (p name : String) :
    isInstallOf name (Event.installPackage p) = (p == name) := by
  by_cases h : p = name <;> simp [isInstallOf, h]

/-! ### Shape lemmas for the installer helpers -/

@[simp] theorem installLatexPackage_attemptCount (env : Env) (st : St) (p : String) :
    (installLatexPackage env st p).2.1.attemptCount = st.attemptCount := by
  unfold installLatexPackage
  split
  · simp
  · dsimp only
    split
    · simp
    · split <;> simp

@[simp] theorem installLatexPackage_installed (env : Env) (st : St) (p : String) :
    (installLatexPackage env st p).2.1.installedPackages = st.installedPackages := by
  unfold installLatexPackage
  split
  · simp
  · dsimp only
    split
    · simp
    · split <;> simp

@[simp] theorem installLatexPackage_fallbackFlag (env : Env) (st : St) (p : String) :
    (installLatexPackage env st p).2.1.attemptedFontFallback = st.attemptedFontFallback := by
  unfold installLatexPackage
  split
  · simp
  · dsimp only
    split
    · simp
    · split <;> simp

@[simp] theorem installLatexPackage_currentAttempt (env : Env) (st : St) (p : String) :
    (installLatexPackage env st p).2.1.currentAttempt = st.currentAttempt := by
  unfold installLatexPackage
  split
  · simp
  · dsimp only
    split
    · simp
    · split <;> simp

theorem installLatexPackage_events (env : Env) (st : St) (p : String) :
    (installLatexPackage env st p).2.2 = [] ∨
    (installLatexPackage env st p).2.2 = [Event.versionQuery] ∨
    (installLatexPackage env st p).2.2 = [Event.versionQuery, Event.installPackage p] := by
  unfold installLatexPackage
  split
  · simp
  · dsimp only
    split
    · simp
    · split <;> simp

@[simp] theorem installLatexFonts_st (env : Env) (st : St) (d : Distribution) :
    (installLatexFonts env st d).2.1 = st := by
  unfold installLatexFonts
  split
  · rfl
  · split <;> rfl

theorem installLatexFonts_events (env : Env) (st : St) (d : Distribution) :
    (installLatexFonts env st d).2.2 = [] ∨
    (installLatexFonts env st d).2.2 = [Event.installFonts] := by
  unfold installLatexFonts
  split
  · simp
  · split <;> simp

/-- Events of one `installLatexPackage` call, counted by a predicate that
ignores version queries and installer invocations, contribute nothing. -/
theorem installLatexPackage_countP (env : Env) (st : St) (p : String)
    (q : Event → Bool) (hvq : q Event.versionQuery = false)
    (hip : ∀ n, q (Event.installPackage n) = false) :
    List.countP q (installLatexPackage env st p).2.2 = 0 := by
  rcases installLatexPackage_events env st p with h | h | h <;>
    simp [h, List.countP_cons, hvq, hip]

/-- The installer invocation event for `name` occurs at most once in one
`installLatexPackage` call, and never when the call is for another name. -/
theorem installLatexPackage_countSelf (env : Env) (st : St) (p name : String) :
    List.countP (isInstallOf name) (installLatexPackage env st p).2.2 ≤ 1 ∧
    (p ≠ name →
      List.countP (isInstallOf name) (installLatexPackage env st p).2.2 = 0) := by
  constructor
  · rcases installLatexPackage_events env st p with h | h | h <;>
      simp [h, List.countP_cons, isInstallOf]
    split <;> simp
  · intro hpn
    rcases installLatexPackage_events env st p with h | h | h <;>
      simp [h, List.countP_cons, isInstallOf, hpn]

theorem installLatexFonts_countP (env : Env) (st : St) (d : Distribution)
    (q : Event → Bool) (hif : q Event.installFonts = false) :
    List.countP q (installLatexFonts env st d).2.2 = 0 := by
  rcases installLatexFonts_events env st d with h | h <;>
    simp [h, List.countP_cons, hif]

/-! ### Shape lemmas for the catch-block steps -/

@[simp] theorem exhaustStep_st (st : St) (eout eerr emsg : String) (evAcc : List Event) :
    (exhaustStep st eout eerr emsg evAcc).2.1 = st := by
  unfold exhaustStep
  split <;> rfl

@[simp] theorem exhaustStep_events (st : St) (eout eerr emsg : String) (evAcc : List Event) :
    (exhaustStep st eout eerr emsg evAcc).2.2 = evAcc := by
  unfold exhaustStep
  split <;> rfl

theorem exhaustStep_not_cont (st : St) (eout eerr emsg : String) (evAcc : List Event) :
    (exhaustStep st eout eerr emsg evAcc).1 ≠ .cont := by
  unfold exhaustStep
  split <;> simp

theorem exhaustStep_ret (st : St) (eout eerr emsg : String) (evAcc : List Event)
    (o : Outcome) (h : (exhaustStep st eout eerr emsg evAcc).1 = .ret o) :
    o.isSuccess = false := by
  unfold exhaustStep at h
  split at h <;> simp_all [Outcome.isSuccess]
  subst h
  rfl

/-- Number of installer invocations for `name` in a trace. -/
def instCnt (name : String) (l : List Event) : Nat :=
  List.countP (isInstallOf name) l

/-- Install budget the dedup set still allows for `name`: `0` once the name
is recorded in `installedPackages`, otherwise `1`. -/
def instBound (name : String) (st : St) : Nat :=
  if st.installedPackages.contains name then 0 else 1

theorem missingPackageStep_attemptCount (env : Env) (st : St) (eout eerr emsg : String)
    (evAcc : List Event) :
    (missingPackageStep env st eout eerr emsg evAcc).2.1.attemptCount = st.attemptCount := by
  unfold missingPackageStep
  dsimp only
  split
  · split
    · split <;> simp
    · simp
  · simp

theorem missingPackageStep_countP (env : Env) (st : St) (eout eerr emsg : String)
    (evAcc : List Event) (q : Event → Bool)
    (hprog : ∀ s, q (Event.progress s) = false)
    (hvq : q Event.versionQuery = false)
    (hip : ∀ n, q (Event.installPackage n) = false) :
    List.countP q (missingPackageStep env st eout eerr emsg evAcc).2.2 =
      List.countP q evAcc := by
  unfold missingPackageStep
  dsimp only
  split
  · split
    · split <;>
        simp [List.countP_append, List.countP_cons, hprog, hvq, hip,
          installLatexPackage_countP]
    · simp
  · simp

theorem missingPackageStep_ret (env : Env) (st : St) (eout eerr emsg : String)
    (evAcc : List Event) (o : Outcome)
    (h : (missingPackageStep env st eout eerr emsg evAcc).1 = .ret o) :
    o.isSuccess = false := by
  unfold missingPackageStep at h
  dsimp only at h
  split at h
  · split at h
    · split at h
      · simp at h
      · simp only [StepRes.ret.injEq] at h
        subst h
        rfl
    · exact exhaustStep_ret _ _ _ _ _ _ h
  · exact exhaustStep_ret _ _ _ _ _ _ h

theorem missingPackageStep_instCnt (env : Env) (st : St) (eout eerr emsg : String)
    (evAcc : List Event) (name : String) :
    instCnt name (missingPackageStep env st eout eerr emsg evAcc).2.2 ≤
      instCnt name evAcc + instBound name st ∧
    ((missingPackageStep env st eout eerr emsg evAcc).1 = .cont →
      instCnt name (missingPackageStep env st eout eerr emsg evAcc).2.2 +
        instBound name (missingPackageStep env st eout eerr emsg evAcc).2.1 ≤
      instCnt name evAcc + instBound name st) := by
  unfold missingPackageStep
  dsimp only
  split
  case h_1 m hm =>
    split
    case isTrue hguard =>
      have hcm : st.installedPackages.contains m = false := by
        cases hc : st.installedPackages.contains m
        · rfl
        · rw [hc] at hguard
          simp at hguard
      have hmem : m ∉ st.installedPackages := by
        simpa using hcm
      rcases installLatexPackage_countSelf env st m name with ⟨hle, hne⟩
      split
      case isTrue hsucc =>
        by_cases hmn : m = name
        · subst hmn
          constructor
          · simp [instCnt, instBound, List.countP_append, List.countP_cons, hmem]
            omega
          · intro _
            simp [instCnt, instBound, List.countP_append, List.countP_cons, hmem]
            omega
        · have h0 := hne hmn
          have hnm : name ≠ m := Ne.symm hmn
          constructor
          · simp [instCnt, instBound, List.countP_append, List.countP_cons, h0]
          · intro _
            simp [instCnt, instBound, List.countP_append, List.countP_cons, h0, hnm]
      case isFalse hsucc =>
        constructor
        · by_cases hmn : m = name
          · subst hmn
            simp [instCnt, instBound, List.countP_append, List.countP_cons, hmem]
            omega
          · have h0 := hne hmn
            simp [instCnt, instBound, List.countP_append, List.countP_cons, h0]
        · intro hco
          simp at hco
    case isFalse hguard =>
      refine ⟨by simp, fun hco => ?_⟩
      exact absurd hco (exhaustStep_not_cont st eout eerr emsg evAcc)
  case h_2 =>
    refine ⟨by simp, fun hco => ?_⟩
    exact absurd hco (exhaustStep_not_cont st eout eerr emsg evAcc)

@[simp] theorem fontFallbackStep_attemptCount (env : Env) (dist : Distribution) (st : St)
    (eout eerr emsg : String) (evAcc : List Event) :
    (fontFallbackStep env dist st eout eerr emsg evAcc).2.1.attemptCount = st.attemptCount := by
  unfold fontFallbackStep
  dsimp only
  split
  · split
    · simp
    · split <;> simp
  · exact missingPackageStep_attemptCount env st eout eerr emsg evAcc

theorem fontFallbackStep_countP (env : Env) (dist : Distribution) (st : St)
    (eout eerr emsg : String) (evAcc : List Event) (q : Event → Bool)
    (hprog : ∀ s, q (Event.progress s) = false)
    (hvq : q Event.versionQuery = false)
    (hip : ∀ n, q (Event.installPackage n) = false)
    (hif : q Event.installFonts = false) :
    List.countP q (fontFallbackStep env dist st eout eerr emsg evAcc).2.2 =
      List.countP q evAcc := by
  unfold fontFallbackStep
  dsimp only
  split
  · split
    · simp [List.countP_append, List.countP_cons, hprog]
    · split <;>
        simp [List.countP_append, List.countP_cons, hprog, hif,
          installLatexFonts_countP]
  · exact missingPackageStep_countP env st eout eerr emsg evAcc q hprog hvq hip

theorem fontFallbackStep_ret (env : Env) (dist : Distribution) (st : St)
    (eout eerr emsg : String) (evAcc : List Event) (o : Outcome)
    (h : (fontFallbackStep env dist st eout eerr emsg evAcc).1 = .ret o) :
    o.isSuccess = false := by
  unfold fontFallbackStep at h
  dsimp only at h
  split at h
  · split at h
    · simp only [StepRes.ret.injEq] at h
      subst h
      rfl
    · split at h
      · simp at h
      · simp only [StepRes.ret.injEq] at h
        subst h
        rfl
  · exact missingPackageStep_ret env st eout eerr emsg evAcc o h

theorem fontFallbackStep_instCnt (env : Env) (dist : Distribution) (st : St)
    (eout eerr emsg : String) (evAcc : List Event) (name : String) :
    instCnt name (fontFallbackStep env dist st eout eerr emsg evAcc).2.2 ≤
      instCnt name evAcc + instBound name st ∧
    ((fontFallbackStep env dist st eout eerr emsg evAcc).1 = .cont →
      instCnt name (fontFallbackStep env dist st eout eerr emsg evAcc).2.2 +
        instBound name (fontFallbackStep env dist st eout eerr emsg evAcc).2.1 ≤
      instCnt name evAcc + instBound name st) := by
  unfold fontFallbackStep
  dsimp only
  split
  · split
    · constructor
      · simp [instCnt, List.countP_append, List.countP_cons]
      · intro hco
        simp at hco
    · split
      · constructor
        · simp [instCnt, List.countP_append, List.countP_cons,
            installLatexFonts_countP]
        · intro _
          simp [instCnt, instBound, List.countP_append, List.countP_cons,
            installLatexFonts_countP]
      · constructor
        · simp [instCnt, List.countP_append, List.countP_cons,
            installLatexFonts_countP]
        · intro hco
          simp at hco
  · exact missingPackageStep_instCnt env st eout eerr emsg evAcc name

@[simp] theorem handleFailedAttempt_attemptCount (env : Env) (dist : Distribution) (st : St)
    (eout eerr emsg : String) :
    (handleFailedAttempt env dist st eout eerr emsg).2.1.attemptCount = st.attemptCount := by
  unfold handleFailedAttempt
  dsimp only
  split
  · rfl
  · split
    · split
      · split
        · split <;> simp
        · simp [missingPackageStep_attemptCount]
      · simp [missingPackageStep_attemptCount]
    · exact missingPackageStep_attemptCount env st eout eerr emsg []

/-- Event count of the whole catch block under a predicate blind to progress,
version-query, installer and font events: one `cleanupAux` in the citation
branch (first attempt only), nothing elsewhere. -/
theorem handleFailedAttempt_countP (env : Env) (dist : Distribution) (st : St)
    (eout eerr emsg : String) (q : Event → Bool)
    (hprog : ∀ s, q (Event.progress s) = false)
    (hvq : q Event.versionQuery = false)
    (hip : ∀ n, q (Event.installPackage n) = false)
    (hif : q Event.installFonts = false) :
    List.countP q (handleFailedAttempt env dist st eout eerr emsg).2.2 =
      if env.detectCitationError (eout ++ eerr) && st.attemptCount == 1 then
        (if q Event.cleanupAux then 1 else 0)
      else 0 := by
  unfold handleFailedAttempt
  dsimp only
  split
  case isTrue hcit =>
    simp [List.countP_cons, hprog]
  case isFalse hcit =>
    split
    · split
      case h_1 p hp =>
        split
        · split
          · simp [List.countP_append, List.countP_cons, hprog, hvq, hip,
              installLatexPackage_countP]
          · rw [fontFallbackStep_countP _ _ _ _ _ _ _ q hprog hvq hip hif]
            simp [List.countP_append, List.countP_cons, hprog, hvq, hip,
              installLatexPackage_countP]
        · rw [fontFallbackStep_countP _ _ _ _ _ _ _ q hprog hvq hip hif]
          simp
      case h_2 hp =>
        rw [fontFallbackStep_countP _ _ _ _ _ _ _ q hprog hvq hip hif]
        simp
    · rw [missingPackageStep_countP _ _ _ _ _ _ q hprog hvq hip]
      simp

theorem handleFailedAttempt_ret (env : Env) (dist : Distribution) (st : St)
    (eout eerr emsg : String) (o : Outcome)
    (h : (handleFailedAttempt env dist st eout eerr emsg).1 = .ret o) :
    o.isSuccess = false := by
  unfold handleFailedAttempt at h
  dsimp only at h
  split at h
  · simp at h
  · split at h
    · split at h
      case h_1 p hp =>
        split at h
        · split at h
          · simp at h
          · exact fontFallbackStep_ret _ _ _ _ _ _ _ o h
        · exact fontFallbackStep_ret _ _ _ _ _ _ _ o h
      case h_2 hp =>
        exact fontFallbackStep_ret _ _ _ _ _ _ _ o h
    · exact missingPackageStep_ret _ _ _ _ _ _ o h

/-- Install-count bound for one failed attempt: when the font classifier
never extracts `name`, the catch block performs at most `instBound name st`
installer invocations for `name`; and when it continues the loop, a consumed
budget is recorded in the resulting dedup set. -/
theorem handleFailedAttempt_instCnt (env : Env) (dist : Distribution) (st : St)
    (eout eerr emsg : String) (name : String)
    (hfont : ∀ s, (env.detectFontError s).2 ≠ some name) :
    instCnt name (handleFailedAttempt env dist st eout eerr emsg).2.2 ≤
      instBound name st ∧
    ((handleFailedAttempt env dist st eout eerr emsg).1 = .cont →
      instCnt name (handleFailedAttempt env dist st eout eerr emsg).2.2 +
        instBound name (handleFailedAttempt env dist st eout eerr emsg).2.1 ≤
      instBound name st) := by
  unfold handleFailedAttempt
  dsimp only
  split
  · constructor
    · simp [instCnt, List.countP_cons]
    · intro _
      simp [instCnt, List.countP_cons]
  · split
    · split
      case h_1 p hp =>
        have hpn : p ≠ name := fun hEq => hfont (eout ++ eerr) (hEq ▸ hp)
        have h0 : List.countP (isInstallOf name) (installLatexPackage env st p).2.2 = 0 :=
          (installLatexPackage_countSelf env st p name).2 hpn
        split
        · split
          · constructor
            · simp [instCnt, List.countP_append, List.countP_cons, h0]
            · intro _
              simp [instCnt, instBound, List.countP_append, List.countP_cons, h0,
                Ne.symm hpn]
          · rcases fontFallbackStep_instCnt env dist (installLatexPackage env st p).2.1
              eout eerr emsg
              ([Event.progress .fontInstallation] ++ (installLatexPackage env st p).2.2)
              name with ⟨h1, h2⟩
            have e1 : instCnt name
                ([Event.progress .fontInstallation] ++ (installLatexPackage env st p).2.2) = 0 := by
              simp [instCnt, List.countP_append, List.countP_cons, h0]
            have e2 : instBound name (installLatexPackage env st p).2.1 = instBound name st := by
              simp [instBound]
            constructor
            · omega
            · intro hco
              have := h2 hco
              omega
        · rcases fontFallbackStep_instCnt env dist st eout eerr emsg [] name with ⟨h1, h2⟩
          have e1 : instCnt name ([] : List Event) = 0 := by simp [instCnt]
          constructor
          · omega
          · intro hco
            have := h2 hco
            omega
      case h_2 hp =>
        rcases fontFallbackStep_instCnt env dist st eout eerr emsg [] name with ⟨h1, h2⟩
        have e1 : instCnt name ([] : List Event) = 0 := by simp [instCnt]
        constructor
        · omega
        · intro hco
          have := h2 hco
          omega
    · rcases missingPackageStep_instCnt env st eout eerr emsg [] name with ⟨h1, h2⟩
      have e1 : instCnt name ([] : List Event) = 0 := by simp [instCnt]
      constructor
      · omega
      · intro hco
        have := h2 hco
        omega

/-! ### Attempt-loop invariants -/

/-- Specialization of `handleFailedAttempt_countP` to predicates also blind
to the cleanup event. -/
theorem handleFailedAttempt_countP_zero (env : Env) (dist : Distribution) (st : St)
    (eout eerr emsg : String) (q : Event → Bool)
    (hprog : ∀ s, q (Event.progress s) = false)
    (hvq : q Event.versionQuery = false)
    (hip : ∀ n, q (Event.installPackage n) = false)
    (hif : q Event.installFonts = false)
    (hcl : q Event.cleanupAux = false) :
    List.countP q (handleFailedAttempt env dist st eout eerr emsg).2.2 = 0 := by
  rw [handleFailedAttempt_countP env dist st eout eerr emsg q hprog hvq hip hif]
  simp [hcl]

theorem attemptLoop_engineCount (env : Env) (dist : Distribution) :
    ∀ (fuel : Nat) (st : St),
      List.countP isEngineRun (attemptLoop env dist fuel st).events ≤ fuel := by
  intro fuel
  induction fuel with
  | zero =>
    intro st
    simp [attemptLoop]
  | succ n ih =>
    intro st
    rw [attemptLoop]
    dsimp only
    split
    case isTrue hlt =>
      split
      case h_1 out heqr =>
        split
        case isTrue hrr =>
          simp only [List.countP_cons]
          simp [isEngineRun]
          exact ih _
        case isFalse hrr =>
          simp [List.countP_cons, isEngineRun]
      case h_2 eout eerr emsg heqr =>
        have hc := handleFailedAttempt_countP_zero env dist
          { st with attemptCount := st.attemptCount + 1, nRun := st.nRun + 1 }
          eout eerr emsg isEngineRun (fun _ => rfl) rfl (fun _ => rfl) rfl rfl
        split
        case h_1 st3 evs heq =>
          rw [heq] at hc
          dsimp only at hc
          simp only [List.countP_cons, List.countP_append]
          simp [isEngineRun, hc]
          exact ih _
        case h_2 o st3 evs heq =>
          rw [heq] at hc
          dsimp only at hc
          simp [List.countP_cons, isEngineRun, hc]
        case h_3 a b c st3 evs heq =>
          rw [heq] at hc
          dsimp only at hc
          simp [List.countP_cons, isEngineRun, hc]
    case isFalse hlt =>
      simp

theorem attemptLoop_attemptCount (env : Env) (dist : Distribution) :
    ∀ (fuel : Nat) (st : St), st.attemptCount ≤ maxAttempts →
      (attemptLoop env dist fuel st).st.attemptCount ≤ maxAttempts := by
  intro fuel
  induction fuel with
  | zero =>
    intro st hst
    simpa [attemptLoop] using hst
  | succ n ih =>
    intro st hst
    rw [attemptLoop]
    dsimp only
    split
    case isTrue hlt =>
      split
      case h_1 out heqr =>
        split
        case isTrue hrr =>
          exact ih _ (by simpa using hlt)
        case isFalse hrr =>
          simpa using hlt
      case h_2 eout eerr emsg heqr =>
        split
        case h_1 st3 evs heq =>
          have h31 : st3.attemptCount = st.attemptCount + 1 := by
            have hpr := congrArg (fun x => x.2.1.attemptCount) heq
            simpa using hpr.symm
          exact ih _ (by simp [h31]; omega)
        case h_2 o st3 evs heq =>
          have h31 : st3.attemptCount = st.attemptCount + 1 := by
            have hpr := congrArg (fun x => x.2.1.attemptCount) heq
            simpa using hpr.symm
          simp [h31]
          omega
        case h_3 a b c st3 evs heq =>
          have h31 : st3.attemptCount = st.attemptCount + 1 := by
            have hpr := congrArg (fun x => x.2.1.attemptCount) heq
            simpa using hpr.symm
          simp [h31]
          omega
    case isFalse hlt =>
      simpa using hst

/-- On any attempt other than the first, the catch block emits no cleanup
event (nor any event the predicate counts). -/
theorem handleFailedAttempt_countP_notFirst (env : Env) (dist : Distribution) (st : St)
    (eout eerr emsg : String) (q : Event → Bool)
    (hprog : ∀ s, q (Event.progress s) = false)
    (hvq : q Event.versionQuery = false)
    (hip : ∀ n, q (Event.installPackage n) = false)
    (hif : q Event.installFonts = false)
    (hatt : (st.attemptCount == 1) = false) :
    List.countP q (handleFailedAttempt env dist st eout eerr emsg).2.2 = 0 := by
  rw [handleFailedAttempt_countP env dist st eout eerr emsg q hprog hvq hip hif]
  simp [hatt]

theorem attemptLoop_cleanup_pos (env : Env) (dist : Distribution) :
    ∀ (fuel : Nat) (st : St), 1 ≤ st.attemptCount →
      List.countP isCleanupAux (attemptLoop env dist fuel st).events = 0 := by
  intro fuel
  induction fuel with
  | zero =>
    intro st hst
    simp [attemptLoop]
  | succ n ih =>
    intro st hst
    rw [attemptLoop]
    dsimp only
    split
    case isTrue hlt =>
      split
      case h_1 out heqr =>
        split
        case isTrue hrr =>
          have h0 := ih { st with attemptCount := st.attemptCount + 1, nRun := st.nRun + 1, currentAttempt := some out } (by simp)
          dsimp only
          simp only [List.countP_cons, h0]
          rfl
        case isFalse hrr =>
          rfl
      case h_2 eout eerr emsg heqr =>
        have hc := handleFailedAttempt_countP_notFirst env dist
          { st with attemptCount := st.attemptCount + 1, nRun := st.nRun + 1 }
          eout eerr emsg isCleanupAux (fun _ => rfl) rfl (fun _ => rfl) rfl
          (by simp; omega)
        split
        case h_1 st3 evs heq =>
          rw [heq] at hc
          dsimp only at hc
          have h31 : st3.attemptCount = st.attemptCount + 1 := by
            have hpr := congrArg (fun x => x.2.1.attemptCount) heq
            simpa using hpr.symm
          have h0 := ih st3 (by omega)
          dsimp only
          simp only [List.countP_cons, List.countP_append, hc, h0]
          rfl
        case h_2 o st3 evs heq =>
          rw [heq] at hc
          dsimp only at hc
          dsimp only
          simp only [List.countP_cons, hc]
          rfl
        case h_3 a b c st3 evs heq =>
          rw [heq] at hc
          dsimp only at hc
          dsimp only
          simp only [List.countP_cons, hc]
          rfl
    case isFalse hlt =>
      rfl

theorem attemptLoop_cleanup_init (env : Env) (dist : Distribution)
    (fuel : Nat) (st : St) (hst : st.attemptCount = 0) :
    List.countP isCleanupAux (attemptLoop env dist fuel st).events ≤ 1 := by
  cases fuel with
  | zero => simp [attemptLoop]
  | succ n =>
    rw [attemptLoop]
    dsimp only
    split
    case isTrue hlt =>
      split
      case h_1 out heqr =>
        split
        case isTrue hrr =>
          have h0 := attemptLoop_cleanup_pos env dist n { st with attemptCount := st.attemptCount + 1, nRun := st.nRun + 1, currentAttempt := some out } (by simp)
          dsimp only
          simp only [List.countP_cons, h0]
          simp [isCleanupAux]
        case isFalse hrr =>
          simp [List.countP_cons, isCleanupAux]
      case h_2 eout eerr emsg heqr =>
        have hc := handleFailedAttempt_countP env dist
          { st with attemptCount := st.attemptCount + 1, nRun := st.nRun + 1 }
          eout eerr emsg isCleanupAux (fun _ => rfl) rfl (fun _ => rfl) rfl
        have hcle : List.countP isCleanupAux
            (handleFailedAttempt env dist { st with attemptCount := st.attemptCount + 1, nRun := st.nRun + 1 } eout eerr emsg).2.2 ≤ 1 := by
          rw [hc]
          split
          · simp [isCleanupAux]
          · simp
        split
        case h_1 st3 evs heq =>
          rw [heq] at hcle
          dsimp only at hcle
          have h31 : st3.attemptCount = st.attemptCount + 1 := by
            have hpr := congrArg (fun x => x.2.1.attemptCount) heq
            simpa using hpr.symm
          have h0 := attemptLoop_cleanup_pos env dist n st3 (by omega)
          dsimp only
          simp only [List.countP_cons, List.countP_append, h0]
          simp [isCleanupAux]
          omega
        case h_2 o st3 evs heq =>
          rw [heq] at hcle
          dsimp only at hcle
          dsimp only
          simp only [List.countP_cons]
          simp [isCleanupAux]
          omega
        case h_3 a b c st3 evs heq =>
          rw [heq] at hcle
          dsimp only at hcle
          dsimp only
          simp only [List.countP_cons]
          simp [isCleanupAux]
          omega
    case isFalse hlt =>
      simp

theorem attemptLoop_no_success (env : Env) (dist : Distribution) :
    ∀ (fuel : Nat) (st : St) (o : Outcome),
      (attemptLoop env dist fuel st).exit = .returned o → o.isSuccess = false := by
  intro fuel
  induction fuel with
  | zero =>
    intro st o h
    simp [attemptLoop] at h
  | succ n ih =>
    intro st o h
    rw [attemptLoop] at h
    dsimp only at h
    split at h
    case isTrue hlt =>
      split at h
      case h_1 out heqr =>
        split at h
        case isTrue hrr =>
          exact ih _ o h
        case isFalse hrr =>
          simp at h
      case h_2 eout eerr emsg heqr =>
        split at h
        case h_1 st3 evs heq =>
          exact ih _ o h
        case h_2 o2 st3 evs heq =>
          dsimp only at h
          simp only [LoopExit.returned.injEq] at h
          have hret := congrArg (fun x => x.1) heq
          dsimp only at hret
          rw [← h]
          exact handleFailedAttempt_ret env dist
            { st with attemptCount := st.attemptCount + 1, nRun := st.nRun + 1 }
            eout eerr emsg o2 hret
        case h_3 a b c st3 evs heq =>
          simp at h
    case isFalse hlt =>
      simp at h

theorem attemptLoop_instCnt (env : Env) (dist : Distribution) (name : String)
    (hfont : ∀ s, (env.detectFontError s).2 ≠ some name) :
    ∀ (fuel : Nat) (st : St),
      instCnt name (attemptLoop env dist fuel st).events ≤ instBound name st := by
  intro fuel
  induction fuel with
  | zero =>
    intro st
    simp [attemptLoop, instCnt]
  | succ n ih =>
    intro st
    rw [attemptLoop]
    dsimp only
    split
    case isTrue hlt =>
      split
      case h_1 out heqr =>
        split
        case isTrue hrr =>
          have h0 := ih { st with attemptCount := st.attemptCount + 1, nRun := st.nRun + 1, currentAttempt := some out }
          have hb : instBound name { st with attemptCount := st.attemptCount + 1, nRun := st.nRun + 1, currentAttempt := some out } = instBound name st := by
            simp [instBound]
          dsimp only
          simp only [instCnt, List.countP_cons] at h0 ⊢
          simp only [isInstallOf_engineRun, Bool.false_eq_true, if_false]
          rw [hb] at h0
          omega
        case isFalse hrr =>
          simp [instCnt, List.countP_cons]
      case h_2 eout eerr emsg heqr =>
        rcases handleFailedAttempt_instCnt env dist
          { st with attemptCount := st.attemptCount + 1, nRun := st.nRun + 1 }
          eout eerr emsg name hfont with ⟨H1, H2⟩
        have hb2 : instBound name { st with attemptCount := st.attemptCount + 1, nRun := st.nRun + 1 } = instBound name st := by
          simp [instBound]
        split
        case h_1 st3 evs heq =>
          rw [heq] at H1 H2
          dsimp only at H1 H2
          have hcont := H2 rfl
          have h0 := ih st3
          dsimp only
          simp only [instCnt, List.countP_cons, List.countP_append] at H1 hcont h0 ⊢
          simp only [isInstallOf_engineRun, Bool.false_eq_true, if_false]
          rw [hb2] at hcont
          omega
        case h_2 o st3 evs heq =>
          rw [heq] at H1
          dsimp only at H1
          dsimp only
          simp only [instCnt, List.countP_cons] at H1 ⊢
          simp only [isInstallOf_engineRun, Bool.false_eq_true, if_false]
          rw [hb2] at H1
          omega
        case h_3 a b c st3 evs heq =>
          rw [heq] at H1
          dsimp only at H1
          dsimp only
          simp only [instCnt, List.countP_cons] at H1 ⊢
          simp only [isInstallOf_engineRun, Bool.false_eq_true, if_false]
          rw [hb2] at H1
          omega
    case isFalse hlt =>
      simp [instCnt]

theorem pdfCheck_success (env : Env) (a b d l w : String)
    (h : pdfCheck env a b = .success d l w) : env.pdfData = some d := by
  unfold pdfCheck at h
  split at h
  case h_1 data hdata =>
    simp only [Outcome.success.injEq] at h
    rw [hdata, h.1]
  case h_2 hdata =>
    simp at h

theorem postProcess_countP (env : Env) (st : St) (q : Event → Bool)
    (hb : q Event.bibtexRun = false) (he : q Event.engineRun = false) :
    List.countP q (postProcess env st).2.2 = 0 := by
  unfold postProcess
  dsimp only
  split
  · rfl
  · split
    · split
      · simp [List.countP_cons, hb]
      · split
        · simp [List.countP_cons, hb, he]
        · split
          · simp [List.countP_cons, hb, he]
          · simp [List.countP_cons, hb, he]
    · rfl

theorem postProcess_success (env : Env) (st : St) (d l w : String)
    (h : (postProcess env st).1 = .success d l w) : env.pdfData = some d := by
  unfold postProcess at h
  dsimp only at h
  split at h
  · simp at h
  · split at h
    · split at h
      · exact pdfCheck_success env _ _ d l w h
      · split at h
        · simp at h
        · split at h
          · simp at h
          · exact pdfCheck_success env _ _ d l w h
    · exact pdfCheck_success env _ _ d l w h

/-! ### Claim theorems -/

/-- Neutral oracle: every engine run resolves with empty output, detection
says TeX Live, installs succeed, classifiers fire on nothing, no `.aux`
content, no bibtex, no PDF. -/
def baseEnv : Env :=
  { runLatexEngine := fun _ => .ok ⟨"", ""⟩
    detectLatexDistribution := fun _ => .texlive
    pkgInstallExec := fun _ => none
    fontsInstallExec := none
    detectCitationError := fun _ => false
    detectFontError := fun _ => (false, none)
    detectMissingPackage := fun _ => none
    needsRecompilation := fun _ => false
    auxContent := none
    bibtexRes := none
    pdfData := none }

/-- Pathological oracle for the termination claim: every attempt rejects and
the classifier extracts a fresh missing-package name each time (the n-th
attempt dumps a name of n+1 letters into its output). -/
def envC1 : Env :=
  { baseEnv with
    runLatexEngine := fun n => .err (String.mk (List.replicate (n + 1) 'a')) "" "latex error"
    detectMissingPackage := fun s => some s }

/-- C1: the compile-latex attempt loop terminates after at most
`maxAttempts = 5` engine invocations, the attempt counter never exceeds
`maxAttempts`, and even the pathological classifier that reports a fresh
missing-package name on every attempt halts after exactly 5 engine runs with
the budget-exhaustion outcome of the empty `currentAttempt`. -/
theorem claim_C1_loop_bounded (env : Env) (dist : Distribution) :
    List.countP isEngineRun (attemptLoop env dist maxAttempts initSt).events ≤ maxAttempts ∧
    (attemptLoop env dist maxAttempts initSt).st.attemptCount ≤ maxAttempts ∧
    List.countP isEngineRun (compileLatex envC1).2.2 = 5 ∧
    (compileLatex envC1).1 = .failure "Compilation failed - no successful attempt" ""
      "Failed to compile after all attempts" := by
  refine ⟨attemptLoop_engineCount env dist maxAttempts initSt,
    attemptLoop_attemptCount env dist maxAttempts initSt (by decide), ?_, ?_⟩
  · decide
  · decide

/-- C3: the destructive auxiliary-file cleanup runs at most once per
compilation request, and a loop entered at any attempt count of 1 or more
(i.e. any attempt after the first) never performs it, whatever the citation
classifier says. -/
theorem claim_C3_cleanup_once_first_attempt (env : Env) :
    List.countP isCleanupAux (compileLatex env).2.2 ≤ 1 ∧
    (∀ (dist : Distribution) (fuel : Nat) (st : St), 1 ≤ st.attemptCount →
      List.countP isCleanupAux (attemptLoop env dist fuel st).events = 0) := by
  constructor
  · unfold compileLatex
    dsimp only
    have hloop := attemptLoop_cleanup_init env (env.detectLatexDistribution 0)
      maxAttempts initSt rfl
    split
    · dsimp only
      simp only [List.countP_cons]
      simp [isCleanupAux]
      omega
    · dsimp only
      simp only [List.countP_cons]
      simp [isCleanupAux]
      omega
    · have hpost := postProcess_countP env
        (attemptLoop env (env.detectLatexDistribution 0) maxAttempts initSt).st
        isCleanupAux rfl rfl
      dsimp only
      simp only [List.countP_cons, List.countP_append, hpost]
      simp [isCleanupAux]
      omega
  · intro dist fuel st hst
    exact attemptLoop_cleanup_pos env dist fuel st hst

/-- Oracle for the C3 witness: the citation classifier always fires, but the
loop is entered on attempt 2. -/
def envC3 : Env :=
  { baseEnv with
    runLatexEngine := fun _ => .err "runaway argument" "" "latex exited 1"
    detectCitationError := fun _ => true }

/-- State for the C3 witness: one attempt has already happened. -/
def stC3 : St :=
  { initSt with attemptCount := 1, nRun := 1 }

theorem claim_C3_witness :
    1 ≤ stC3.attemptCount ∧
    List.countP isCleanupAux (attemptLoop envC3 .texlive 4 stC3).events = 0 :=
  ⟨by decide,
    (claim_C3_cleanup_once_first_attempt envC3).2 .texlive 4 stC3 (by decide)⟩

/-- C4: the handler resolves with `success: true` only when the PDF artifact
exists on disk and its bytes are read back; in particular a request whose
`pdfData` oracle is empty (no artifact after the final pass, whatever the
exit codes were) can never produce a success outcome. -/
theorem claim_C4_artifact_required (env : Env) (d l w : String)
    (h : (compileLatex env).1 = .success d l w) : env.pdfData = some d := by
  unfold compileLatex at h
  dsimp only at h
  split at h
  case h_1 o heq =>
    dsimp only at h
    have hns := attemptLoop_no_success env (env.detectLatexDistribution 0)
      maxAttempts initSt o heq
    rw [h] at hns
    simp [Outcome.isSuccess] at hns
  case h_2 a b c heq =>
    simp at h
  case h_3 heq =>
    dsimp only at h
    exact postProcess_success env _ d l w h

/-- Oracle for the C4 witness: a clean one-pass compile with the artifact
present. -/
def envC4 : Env :=
  { baseEnv with
    runLatexEngine := fun _ => .ok ⟨"main-out", "main-err"⟩
    pdfData := some "PDFDATA" }

theorem claim_C4_witness :
    (compileLatex envC4).1 = .success "PDFDATA" "main-out" "main-err" ∧
    envC4.pdfData = some "PDFDATA" :=
  ⟨by decide, claim_C4_artifact_required envC4 "PDFDATA" "main-out" "main-err" (by decide)⟩

/-- Oracle refuting C2: every attempt rejects with a font error naming
`"foo"`; the single-package install always throws, while the fallback bundle
succeeds.  The failed name is never recorded in `installedPackages`, so the
next attempt invokes the installer for `"foo"` again. -/
def envC2 : Env :=
  { baseEnv with
    runLatexEngine := fun _ => .err "fonterr" "" "latex exited 1"
    detectFontError := fun _ => (true, some "foo")
    pkgInstallExec := fun _ => some "mpm failed" }

/-- C2 counterexample: in the `envC2` request the installer is invoked twice
for the name `"foo"` - the claim's "at most once per name" bound is false on
the code.  (Attempt 1: named install fails, fallback bundle succeeds, loop
continues; attempt 2: `"foo"` is still not in `installedPackages`, so the
named install runs again.) -/
theorem claim_C2_counterexample :
    List.countP (isInstallOf "foo") (compileLatex envC2).2.2 = 2 ∧
    ¬ List.countP (isInstallOf "foo") (compileLatex envC2).2.2 ≤ 1 := by
  constructor
  · decide
  · decide

/-- C2 amended: the at-most-once bound does hold for every name the font
classifier never extracts - in particular for names reported only through the
missing-package classification (the spec's own test scenario): across a whole
request the installer is invoked at most once for such a name, because a
successful install records the name in `installedPackages` and a failed one
terminates the request. -/
theorem claim_C2_install_once (env : Env) (name : String)
    (hfont : ∀ s, (env.detectFontError s).2 ≠ some name) :
    List.countP (isInstallOf name) (compileLatex env).2.2 ≤ 1 := by
  unfold compileLatex
  dsimp only
  have hloop := attemptLoop_instCnt env (env.detectLatexDistribution 0) name hfont
    maxAttempts initSt
  have hbd : instBound name initSt = 1 := rfl
  rw [hbd] at hloop
  simp only [instCnt] at hloop
  split
  · dsimp only
    simp only [List.countP_cons]
    simp [isInstallOf]
    omega
  · dsimp only
    simp only [List.countP_cons]
    simp [isInstallOf]
    omega
  · have hpost := postProcess_countP env
      (attemptLoop env (env.detectLatexDistribution 0) maxAttempts initSt).st
      (isInstallOf name) rfl rfl
    dsimp only
    simp only [List.countP_cons, List.countP_append, hpost]
    simp [isInstallOf]
    omega

/-- Oracle for the C2 witness: the classifier repeatedly reports
`MissingPackage "foo"` (never as a font), and the install succeeds. -/
def envC2W : Env :=
  { baseEnv with
    runLatexEngine := fun n => if n == 0 then .err "pkg missing" "" "latex exited 1"
      else .ok ⟨"ok-out", "ok-err"⟩
    detectMissingPackage := fun _ => some "foo"
    pdfData := some "PDFDATA" }

theorem claim_C2_witness :
    (∀ s, (envC2W.detectFontError s).2 ≠ some "foo") ∧
    List.countP (isInstallOf "foo") (compileLatex envC2W).2.2 ≤ 1 :=
  ⟨fun s => by simp [envC2W, baseEnv],
    claim_C2_install_once envC2W "foo" (fun s => by simp [envC2W, baseEnv])⟩

/-- C5: a package name failing the allowlist regex makes both
`installLatexPackage` and the `install-latex-package` IPC handler return the
invalid-name failure with the state untouched and an empty event trace - no
external process (not even the distribution version query) is started. -/
theorem claim_C5_allowlist_guard (env : Env) (st : St) (name : String)
    (h : validPackageName name = false) :
    installLatexPackage env st name =
      (⟨false, "Invalid package name."⟩, st, ([] : List Event)) ∧
    installLatexPackageHandler env st name =
      (⟨false, "Invalid package name."⟩, st, ([] : List Event)) := by
  constructor
  · unfold installLatexPackage
    rw [h]
    rfl
  · unfold installLatexPackageHandler
    rw [h]
    rfl

theorem claim_C5_witness :
    validPackageName "pkg; rm -rf /" = false ∧
    installLatexPackage baseEnv initSt "pkg; rm -rf /" =
      (⟨false, "Invalid package name."⟩, initSt, ([] : List Event)) ∧
    installLatexPackageHandler baseEnv initSt "pkg; rm -rf /" =
      (⟨false, "Invalid package name."⟩, initSt, ([] : List Event)) :=
  ⟨by decide,
    (claim_C5_allowlist_guard baseEnv initSt "pkg; rm -rf /" (by decide)).1,
    (claim_C5_allowlist_guard baseEnv initSt "pkg; rm -rf /" (by decide)).2⟩

/-- Oracle for C6: the engine's only run stands for a spawn whose timeout
fired - the child was killed, the `exit` event delivered `code = null`, and
`spawnCollect` resolved (it did not reject), handing the collected partial
output to the orchestrator as an ordinary resolved attempt.  A stale PDF from
an earlier compile is still on disk. -/
def envC6 : Env :=
  { baseEnv with
    runLatexEngine := fun _ => .ok ⟨"timeout-partial-out", "timeout-partial-err"⟩
    pdfData := some "STALEPDF" }

/-- C6 (code bug): when the timeout kills the child, the exit event carries
`code = null`, and `spawnCollect`'s settle logic `if (code && code !== 0)`
treats `null` like `0`: the promise resolves instead of rejecting, so the
timed-out run is reported to the orchestrator as a successful attempt - in
`envC6` the request even resolves with `success: true` on the stale PDF.
This contradicts the claim that a timed-out run is returned as a
non-zero/abnormal exit and never as a successful attempt. -/
theorem claim_C6_timeout_resolves :
    spawnExitSettle "timeout-partial-out" "timeout-partial-err" none =
      .resolved "timeout-partial-out" "timeout-partial-err" none ∧
    (compileLatex envC6).1 =
      .success "STALEPDF" "timeout-partial-out" "timeout-partial-err" := by
  constructor
  · rfl
  · decide

/-- Oracle refuting C7: attempt 1 rejects with a font error naming `"foo"`,
the single-package install throws, the fallback bundle succeeds, attempt 2
resolves cleanly and the PDF exists. -/
def envC7 : Env :=
  { baseEnv with
    runLatexEngine := fun n => if n == 0 then .err "font-missing" "" "latex exited 1"
      else .ok ⟨"ok-out", "ok-err"⟩
    detectFontError := fun _ => (true, some "foo")
    pkgInstallExec := fun _ => some "mpm failed"
    pdfData := some "PDFDATA" }

/-- C7 counterexample: in the `envC7` request the named font install for
`"foo"` is invoked (and throws, since every `pkgInstallExec` outcome is an
error), yet the request does not terminate with a Failure carrying that
installer's message: it goes on to install the fallback bundle once and ends
in `success: true`. -/
theorem claim_C7_counterexample :
    List.countP (isInstallOf "foo") (compileLatex envC7).2.2 = 1 ∧
    List.countP isInstallFonts (compileLatex envC7).2.2 = 1 ∧
    (compileLatex envC7).1 = .success "PDFDATA" "ok-out" "ok-err" := by
  refine ⟨by decide, by decide, by decide⟩

/-- C7 amended: when the extracted font package's install fails, the catch
block does not return; it falls through to the generic fallback.  With the
fallback not yet attempted and a known distribution, a successful fallback
bundle install makes the iteration continue the loop (emitting the
`installFonts` action), and only a failed fallback terminates the request -
with the fallback installer's message, not the named installer's, as the
detail. -/
theorem claim_C7_fallback_after_named_failure (env : Env) (dist : Distribution) (st : St)
    (eout eerr emsg p : String)
    (hfe : (env.detectFontError (eout ++ eerr)).1 = true)
    (hfp : (env.detectFontError (eout ++ eerr)).2 = some p)
    (hpne : p.isEmpty = false)
    (hnotin : st.installedPackages.contains p = false)
    (hfail : (installLatexPackage env st p).1.success = false)
    (hcit : env.detectCitationError (eout ++ eerr) = false)
    (hfb : st.attemptedFontFallback = false)
    (hdist : dist ≠ .unknown) :
    (env.fontsInstallExec = none →
      (handleFailedAttempt env dist st eout eerr emsg).1 = .cont ∧
      Event.installFonts ∈ (handleFailedAttempt env dist st eout eerr emsg).2.2) ∧
    (∀ m, env.fontsInstallExec = some m →
      (handleFailedAttempt env dist st eout eerr emsg).1 =
        .ret (.failure "Font installation failed" (eout ++ eerr)
          s!"Font installation failed: {m}")) := by
  have hflag : (installLatexPackage env st p).2.1.attemptedFontFallback = false := by
    rw [installLatexPackage_fallbackFlag]
    exact hfb
  have hmem : p ∉ st.installedPackages := by
    simpa using hnotin
  have hred : handleFailedAttempt env dist st eout eerr emsg =
      fontFallbackStep env dist (installLatexPackage env st p).2.1 eout eerr emsg
        ([Event.progress Stage.fontInstallation] ++ (installLatexPackage env st p).2.2) := by
    unfold handleFailedAttempt
    dsimp only
    rw [hfp]
    simp [hcit, hfe, hpne, hmem, hfail]
  rw [hred]
  constructor
  · intro hnone
    unfold fontFallbackStep installLatexFonts
    dsimp only
    rw [hflag, hnone]
    cases dist
    case unknown => exact absurd rfl hdist
    all_goals {
      simp [List.mem_append]
    }
  · intro m hm
    unfold fontFallbackStep installLatexFonts
    dsimp only
    rw [hflag, hm]
    cases dist
    case unknown => exact absurd rfl hdist
    all_goals {
      simp
    }

/-- State for the C7 witness: the failed attempt is attempt 1. -/
def stC7 : St :=
  { initSt with attemptCount := 1, nRun := 1 }

theorem claim_C7_witness :
    (handleFailedAttempt envC7 .texlive stC7 "font-missing" "" "latex exited 1").1 =
      .cont ∧
    Event.installFonts ∈
      (handleFailedAttempt envC7 .texlive stC7 "font-missing" "" "latex exited 1").2.2 :=
  (claim_C7_fallback_after_named_failure envC7 .texlive stC7 "font-missing" "" "latex exited 1"
    "foo" (by decide) (by decide) (by decide) (by decide) (by decide) (by decide)
    (by decide) (by decide)).1 rfl

/-- C8: after a structurally successful final attempt whose `.aux` file shows
a bibliography marker, the post-processing phase invokes bibtex exactly once,
then exactly two further engine passes, in that order, and both the log and
the warnings of the outcome carry the delimited sub-pass outputs in order
(the hypotheses say the resolver and both reruns resolve; a rejection of any
of them aborts through the handler's outer catch instead and is outside this
scenario). -/
theorem claim_C8_bibtex_then_two_reruns (env : Env) (st : St)
    (att b p2 p3 : ProcOutput) (aux : String)
    (hca : st.currentAttempt = some att)
    (haux : env.auxContent = some aux)
    (hmark : (containsSubstr aux "\\bibdata" || containsSubstr aux "\\citation") = true)
    (hbib : env.bibtexRes = some b)
    (hr2 : env.runLatexEngine st.nRun = .ok p2)
    (hr3 : env.runLatexEngine (st.nRun + 1) = .ok p3) :
    (postProcess env st).2.2 = [Event.bibtexRun, Event.engineRun, Event.engineRun] ∧
    (postProcess env st).1 = pdfCheck env
      (att.stdout ++ "\n\n[BibTeX]\n" ++ b.stdout ++ "\n\n[Re-run 1]\n" ++ p2.stdout
        ++ "\n\n[Re-run 2]\n" ++ p3.stdout)
      (att.stderr ++ "\n\n[BibTeX]\n" ++ b.stderr ++ "\n\n[Re-run 1]\n" ++ p2.stderr
        ++ "\n\n[Re-run 2]\n" ++ p3.stderr) := by
  unfold postProcess
  dsimp only
  rw [hca]
  dsimp only
  rw [haux]
  dsimp only
  rw [hbib, hr2]
  dsimp only
  rw [hr3]
  simp [hmark]

/-- Oracle for the C8 witness. -/
def envC8 : Env :=
  { baseEnv with
    runLatexEngine := fun _ => .ok ⟨"rr-out", "rr-err"⟩
    auxContent := some "x \\citation y"
    bibtexRes := some ⟨"bib-out", "bib-err"⟩
    pdfData := some "PDFDATA" }

/-- State for the C8 witness: the final attempt resolved. -/
def stC8 : St :=
  { initSt with currentAttempt := some ⟨"main-out", "main-err"⟩, nRun := 1 }

theorem claim_C8_witness :
    (postProcess envC8 stC8).2.2 = [Event.bibtexRun, Event.engineRun, Event.engineRun] ∧
    (postProcess envC8 stC8).1 = pdfCheck envC8
      ("main-out" ++ "\n\n[BibTeX]\n" ++ "bib-out" ++ "\n\n[Re-run 1]\n" ++ "rr-out"
        ++ "\n\n[Re-run 2]\n" ++ "rr-out")
      ("main-err" ++ "\n\n[BibTeX]\n" ++ "bib-err" ++ "\n\n[Re-run 1]\n" ++ "rr-err"
        ++ "\n\n[Re-run 2]\n" ++ "rr-err") :=
  claim_C8_bibtex_then_two_reruns envC8 stC8 ⟨"main-out", "main-err"⟩
    ⟨"bib-out", "bib-err"⟩ ⟨"rr-out", "rr-err"⟩ ⟨"rr-out", "rr-err"⟩ "x \\citation y"
    rfl rfl (by decide) rfl rfl rfl

/-- Oracle refuting C9: one missing-package remediation inside the request. -/
def envC9 : Env :=
  { baseEnv with
    runLatexEngine := fun n => if n == 0 then .err "sty missing" "" "latex exited 1"
      else .ok ⟨"ok-out", "ok-err"⟩
    detectMissingPackage := fun _ => some "foo"
    pdfData := some "PDFDATA" }

/-- C9 counterexample: a request with a single successful missing-package
remediation performs two `pdflatex --version` distribution queries (one at
request start and a fresh one inside `installLatexPackage`), not one - the
detection result is not memoized across the installer call. -/
theorem claim_C9_counterexample :
    List.countP isVersionQuery (compileLatex envC9).2.2 = 2 ∧
    ¬ List.countP isVersionQuery (compileLatex envC9).2.2 = 1 ∧
    (compileLatex envC9).1 = .success "PDFDATA" "ok-out" "ok-err" := by
  refine ⟨by decide, by decide, by decide⟩

/-- C9 amended: the handler queries the distribution once at the start of
every request (the first event of every trace is the version query), but
every `installLatexPackage` call on a valid name performs its own fresh
version query - so a request makes 1 + (number of validated installer calls)
detection invocations rather than one memoized detection. -/
theorem claim_C9_redetect_per_install (env : Env) (st : St) (name : String)
    (h : validPackageName name = true) :
    (compileLatex env).2.2.head? = some Event.versionQuery ∧
    List.countP isVersionQuery (installLatexPackage env st name).2.2 = 1 := by
  constructor
  · unfold compileLatex
    dsimp only
    split
    · rfl
    · rfl
    · rfl
  · unfold installLatexPackage
    rw [h]
    simp only [Bool.not_true, Bool.false_eq_true, if_false]
    split
    · rfl
    · split
      · rfl
      · rfl

theorem claim_C9_witness :
    validPackageName "foo" = true ∧
    ((compileLatex baseEnv).2.2.head? = some Event.versionQuery ∧
      List.countP isVersionQuery (installLatexPackage baseEnv initSt "foo").2.2 = 1) :=
  ⟨by decide, claim_C9_redetect_per_install baseEnv initSt "foo" (by decide)⟩

/-- C10 (implicit): on the final allowed attempt a zero-exit run whose output
still matches a rerun-needed pattern does not produce a budget-exhaustion
failure: the loop simply breaks (the pending rerun signal is dropped),
post-processing runs, and with no bibliography marker and the PDF artifact
present the outcome is plain `success`. -/
theorem claim_C10_rerun_dropped_at_budget (env : Env) (dist : Distribution) (st : St)
    (out : ProcOutput) (fuel : Nat) (d : String)
    (hrun : env.runLatexEngine st.nRun = .ok out)
    (hrr : env.needsRecompilation (out.stdout ++ out.stderr) = true)
    (hlast : st.attemptCount + 1 = maxAttempts)
    (haux : env.auxContent = none)
    (hpdf : env.pdfData = some d) :
    (attemptLoop env dist (fuel + 1) st).exit = .broke ∧
    (attemptLoop env dist (fuel + 1) st).events = [Event.engineRun] ∧
    (attemptLoop env dist (fuel + 1) st).st.currentAttempt = some out ∧
    (postProcess env (attemptLoop env dist (fuel + 1) st).st).1 =
      .success d out.stdout out.stderr := by
  have hlt : st.attemptCount < maxAttempts := by omega
  have hloop : attemptLoop env dist (fuel + 1) st =
      ⟨.broke, { st with attemptCount := st.attemptCount + 1, nRun := st.nRun + 1, currentAttempt := some out }, [Event.engineRun]⟩ := by
    rw [attemptLoop]
    dsimp only
    rw [if_pos hlt, hrun]
    dsimp only
    have hdec : decide (st.attemptCount + 1 < maxAttempts) = false := by
      simp [hlast]
    rw [hrr, hdec]
    simp
  refine ⟨by rw [hloop], by rw [hloop], by rw [hloop], ?_⟩
  rw [hloop]
  unfold postProcess
  dsimp only
  rw [haux]
  dsimp only
  simp [hpdf, pdfCheck]

/-- Oracle for the C10 witness. -/
def envC10 : Env :=
  { baseEnv with
    runLatexEngine := fun _ => .ok ⟨"final-out", "final-err"⟩
    needsRecompilation := fun _ => true
    pdfData := some "PDFDATA" }

/-- State for the C10 witness: entering the fifth and final attempt. -/
def stC10 : St :=
  { initSt with attemptCount := 4, nRun := 4 }

theorem claim_C10_witness :
    (attemptLoop envC10 .texlive 1 stC10).exit = .broke ∧
    (attemptLoop envC10 .texlive 1 stC10).events = [Event.engineRun] ∧
    (attemptLoop envC10 .texlive 1 stC10).st.currentAttempt =
      some ⟨"final-out", "final-err"⟩ ∧
    (postProcess envC10 (attemptLoop envC10 .texlive 1 stC10).st).1 =
      .success "PDFDATA" "final-out" "final-err" :=
  claim_C10_rerun_dropped_at_budget envC10 .texlive stC10 ⟨"final-out", "final-err"⟩ 0
    "PDFDATA" rfl rfl (by decide) rfl rfl

end Openotex
